import Mathlib

/-!
Shallow embedding of the worker control loop of sd-miner-v1.3.1.py
(heartbeat throttling, reload-signal timer, job polling, log metrics
aggregation, supervisor start-up) together with proofs about it.

Timestamps are modelled as rationals, Python ints as integers, Python
strings as lists of characters, and fallible code as Option / Except.
-/

namespace SdMiner

/-! ## String-scanning helpers modelling the Python str operations used
by the miner (substring containment, str.split, str.strip).  All are
over lists of characters. -/

/-- Does the list s start with the list sep?  Models Python
str.startswith, used as the building block of occurrence search. -/
def startsWith : List Char → List Char → Bool
  | [], _ => true
  | _ :: _, [] => false
  | a :: sep, b :: s => a == b && startsWith sep s

/-- First occurrence search: returns the text before the first occurrence
of sep in s together with the text after it, or none when sep never
occurs.  This is the scan underlying Python substring containment and
str.split with a non-empty separator. -/
def findSplit (sep : List Char) : List Char → Option (List Char × List Char)
  | [] => none
  | c :: rest =>
    if startsWith sep (c :: rest) then some ([], (c :: rest).drop sep.length)
    else match findSplit sep rest with
         | some (pre, post) => some (c :: pre, post)
         | none => none

/-- Python membership test sub in s for strings. -/
def occursIn (sep s : List Char) : Bool := (findSplit sep s).isSome

/-- Models s.split(sep)[1] for a non-empty separator: the text between
the first occurrence of sep and the following occurrence (or the end of
the string when sep occurs only once); none when sep does not occur. -/
def part1 (sep s : List Char) : Option (List Char) :=
  match findSplit sep s with
  | none => none
  | some (_, post) =>
    match findSplit sep post with
    | some (pre2, _) => some pre2
    | none => some post

/-- Models Python s.strip of a quotation mark: removes every leading and
trailing quote character. -/
def stripQuotes (s : List Char) : List Char :=
  (((s.dropWhile (fun c => c == '"')).reverse.dropWhile (fun c => c == '"'))).reverse

/-! ## send_miner_request (sd-miner-v1.3.1.py lines 97-132)

The heartbeat gate compares time.time() - config.last_heartbeat with 60
and, when the interval has elapsed, attaches the hardware description
and version to the request and sets config.last_heartbeat before
post_request is invoked.  The two adjacent time.time() calls on lines
103 and 106 are modelled by a single now.  post_request, the HTTP
transport, is external: its result enters the model as the response
argument (none models a falsy / failed response).  log_response, which
parses the response into the returned job dictionary, is also external
and enters as a function argument. -/

/-- The sentinel scanned for in the response body (line 115). -/
def warning_indicator : List Char := "Warning:".toList

/-- Lines 116-119: when the sentinel occurs in the body, the warning
text is response.text.split("Warning:")[1].strip of quotes. -/
def warningOf (text : List Char) : Option (List Char) :=
  if occursIn warning_indicator text then (part1 warning_indicator text).map stripQuotes
  else none

/-- An HTTP response as send_miner_request consumes it: a status code
and a raw body. -/
structure HttpResponse where
  status_code : ℤ
  text : List Char

/-- The observable outcome of one send_miner_request call: whether the
hardware heartbeat payload was attached, the stored last_heartbeat
after the call, the surfaced warning text, and the returned response
data. -/
structure MinerRequestResult (α : Type) where
  attached_hardware : Bool
  last_heartbeat : ℚ
  warning : Option (List Char)
  response_data : Option α

/-- Lines 97-132 of sd-miner-v1.3.1.py as a state transformer on
config.last_heartbeat.  Note that the heartbeat timestamp is assigned
on line 106, before post_request runs on line 110, so the response does
not influence the stored timestamp. -/
def send_miner_request {α : Type} (now last_heartbeat : ℚ)
    (response : Option HttpResponse)
    (log_response : Option HttpResponse → Option α) : MinerRequestResult α :=
  let attach := decide (now - last_heartbeat ≥ 60)
  let heartbeat' := if now - last_heartbeat ≥ 60 then now else last_heartbeat
  let warning :=
    match response with
    | some r => warningOf r.text
    | none => none
  { attached_hardware := attach
    last_heartbeat := heartbeat'
    warning := warning
    response_data := log_response response }

/-! ## check_and_reload_model (sd-miner-v1.3.1.py lines 134-161) -/

/-- The environment a check_and_reload_model call observes: whether
post_request to /miner_signal produced a truthy response with status
code 200, the model id carried by that response, and the local /
loaded model inventories consulted on line 154. -/
structure SignalEnv where
  response_ok : Bool
  model_id_from_signal : Option String
  local_model_ids : List String
  loaded_models : List String
  loaded_loras : List String

/-- Does line 154 accept the signalled model: present, locally
available, and neither already loaded as a model nor as a lora? -/
def signalApplies (env : SignalEnv) : Bool :=
  match env.model_id_from_signal with
  | some m =>
    decide (m ∈ env.local_model_ids) &&
    !(decide (m ∈ env.loaded_models)) && !(decide (m ∈ env.loaded_loras))
  | none => false

/-- Lines 134-161: current_time is time.time() taken at entry.  When the
reload interval has elapsed the signal call is made; only a 200 response
whose model id passes the line-154 test reassigns the local
last_signal_time (line 156).  The function ends with line 161:
return last_signal_time if current_time - last_signal_time <
reload_interval else current_time, evaluated on the possibly reassigned
variable. -/
def check_and_reload_model (env : SignalEnv) (reload_interval : ℚ)
    (last_signal_time current_time : ℚ) : ℚ :=
  let last' :=
    if current_time - last_signal_time ≥ reload_interval then
      if env.response_ok && signalApplies env then current_time else last_signal_time
    else last_signal_time
  if current_time - last' < reload_interval then last' else current_time

/-! ## process_jobs (sd-miner-v1.3.1.py lines 314-331)

config.loaded_models and config.loaded_loras are dictionaries; next of
iter gives their first key or None, modelled by List.head? on the key
lists.  get_local_model_ids is an external collaborator whose result
enters as an argument. -/

/-- How one process_jobs iteration proceeds up to the scheduler call:
either sys.exit with the given code, or a send_miner_request carrying
the given model id. -/
inductive ProcessJobsStep where
  | exited (code : ℕ)
  | requested (model_id : Option String)
  deriving DecidableEq

/-- Lines 314-323: exit 0 when get_local_model_ids is empty, otherwise
poll with the first loaded lora key if any, else the first loaded model
key (which may itself be absent). -/
def process_jobs (loaded_models loaded_loras local_model_ids : List String) :
    ProcessJobsStep :=
  let current_model_id := loaded_models.head?
  let current_lora_id := loaded_loras.head?
  if local_model_ids.isEmpty then .exited 0
  else .requested (if current_lora_id.isSome then current_lora_id else current_model_id)

/-! ## parse_log_file (sd-miner-v1.3.1.py lines 163-248)

The aggregator reads the log lines, locates the last line containing
RUN_MARKER and folds the metric updates over the lines strictly after
it.  The regular-expression searches used on each line are modelled
below for the two patterns whose matches feed the computation:
job_completed_pattern and job_received_pattern (device_info_pattern
only populates the devices dictionary, which is never returned, and
job_processing_pattern is commented out in the source). -/

/-- All decompositions s = pre ++ sep ++ post, ordered by increasing
pre length, i.e. the occurrences of sep in s from left to right. -/
def splitsOn (sep : List Char) : List Char → List (List Char × List Char)
  | [] => if startsWith sep [] then [([], [])] else []
  | c :: rest =>
    (if startsWith sep (c :: rest) then [([], (c :: rest).drop sep.length)] else []) ++
    (splitsOn sep rest).map (fun p => (c :: p.1, p.2))

/-- The character class [\d.] of job_completed_pattern (ASCII digits;
Python \d also covers other Unicode digits, which never occur in the
miner's own log lines). -/
def digitOrDot (c : Char) : Bool := c.isDigit || c == '.'

def digitVal (c : Char) : ℕ := c.toNat - '0'.toNat

def digitsVal (ds : List Char) : ℕ := ds.foldl (fun a c => a * 10 + digitVal c) 0

/-- Python float(s) applied to a string drawn from [\d.]+, modelled
with exact rational values: none models the ValueError raised on inputs
such as a bare dot or a string with two dots. -/
def pyFloat (s : List Char) : Option ℚ :=
  let intPart := s.takeWhile (fun c => c != '.')
  let rest := s.dropWhile (fun c => c != '.')
  match rest with
  | [] =>
    if intPart.isEmpty then none
    else if intPart.all Char.isDigit then some ((digitsVal intPart : ℚ)) else none
  | _ :: frac =>
    if frac.contains '.' then none
    else if intPart.isEmpty && frac.isEmpty then none
    else if intPart.all Char.isDigit && frac.all Char.isDigit then
      some ((digitsVal intPart : ℚ) + (digitsVal frac : ℚ) / (10 : ℚ) ^ frac.length)
    else none

/-- Literal pieces of job_completed_pattern,
INFO - Request ID (.+) completed. Total time: ([\d.]+) s
(the dot after completed is the regex any-character). -/
def rid_lit : List Char := "INFO - Request ID ".toList

def completed_lit : List Char := " completed".toList

def total_time_lit : List Char := " Total time: ".toList

def seconds_lit : List Char := " s".toList

/-- Attempt of job_completed_pattern starting right after rid_lit, over
the suffix s, returning the text of group 2.  The greedy (.+) is
modelled by trying the longest group-1 candidate first (splitsOn lists
candidates by increasing length, hence the reverse); the any-character
after completed must not be a newline, nor may group 1 contain one;
([\d.]+) greedily takes the maximal run of digit-or-dot characters,
which must be non-empty and be followed by the literal space-s. -/
def completedAt (s : List Char) : Option (List Char) :=
  ((splitsOn completed_lit s).reverse).findSome? fun q =>
    if q.1.isEmpty || q.1.contains '\n' then none
    else
      match q.2 with
      | [] => none
      | c :: rest2 =>
        if c == '\n' then none
        else if startsWith total_time_lit rest2 then
          let rest3 := rest2.drop total_time_lit.length
          let d := rest3.takeWhile digitOrDot
          if d.isEmpty then none
          else if startsWith seconds_lit (rest3.drop d.length) then some d else none
        else none

/-- job_completed_pattern.search(line), returning group 2 on a match:
re.search commits to the leftmost start position admitting a match, and
a match must begin with rid_lit, so the occurrences of rid_lit are
tried from left to right. -/
def completedGroup2 (line : List Char) : Option (List Char) :=
  (splitsOn rid_lit line).findSome? fun p => completedAt p.2

/-- Literal pieces of job_received_pattern,
INFO - Response from server for miner_id .*: (.+) -/
def jr_lit : List Char := "INFO - Response from server for miner_id ".toList

def colon_space_lit : List Char := ": ".toList

/-- Attempt of job_received_pattern after jr_lit: the greedy .* takes
the longest newline-free stretch up to a colon-space such that at least
one non-newline character follows; group 1 is the greedy (.+), the
maximal newline-free run after the colon-space. -/
def jrAt (s : List Char) : Option (List Char) :=
  ((splitsOn colon_space_lit s).reverse).findSome? fun q =>
    if q.1.contains '\n' then none
    else
      let g := q.2.takeWhile (fun c => c != '\n')
      if g.isEmpty then none else some g

/-- job_received_pattern.search(line), returning group 1 on a match. -/
def jobReceivedGroup1 (line : List Char) : Option (List Char) :=
  (splitsOn jr_lit line).findSome? fun p => jrAt p.2

/-- Line 206: group(1).replace of single quotes by double quotes before
json.loads. -/
def pyReplaceQuotes (s : List Char) : List Char :=
  s.map fun c => if c == '\'' then '"' else c

/-- The substring tested on line 210. -/
def processing_lit : List Char := "Processing Request ID".toList

/-- The substring tested on line 227. -/
def warning_lit : List Char := "WARNING".toList

/-- The run marker of line 30. -/
def RUN_MARKER : List Char := "INFO - Starting new run".toList

/-- The counters accumulated by the loop at lines 186-228.  Python
integers are unbounded, so they are integers here; the latency list
collects the parsed total times. -/
structure LogMetrics where
  num_jobs : ℤ
  success_jobs : ℤ
  failed_jobs : ℤ
  latency : List ℚ
  jobs_being_processed : ℤ
  deriving DecidableEq

def metricsInit : LogMetrics := ⟨0, 0, 0, [], 0⟩

/-- The two ways parse_log_file raises: the StopIteration from line 184
when no line contains the run marker, and the ValueError from float on
line 224. -/
inductive ParseError where
  | noMarker
  | badFloat
  deriving DecidableEq

/-- Lines 227-228: any line containing WARNING counts a failed job. -/
def warnStep (m : LogMetrics) (line : List Char) : LogMetrics :=
  if occursIn warning_lit line then { m with failed_jobs := m.failed_jobs + 1 } else m

/-- Lines 210-228 for one line (after the job_received json check):
the Processing Request ID test, the job_completed match with its float
conversion, then the WARNING test. -/
def processLineCore (m : LogMetrics) (line : List Char) : Except ParseError LogMetrics :=
  let m1 :=
    if occursIn processing_lit line then
      { m with jobs_being_processed := m.jobs_being_processed + 1,
               num_jobs := m.num_jobs + 1 }
    else m
  match completedGroup2 line with
  | some d =>
    match pyFloat d with
    | some t =>
      .ok (warnStep { m1 with success_jobs := m1.success_jobs + 1,
                              jobs_being_processed := m1.jobs_being_processed - 1,
                              latency := m1.latency ++ [t] } line)
    | none => .error .badFloat
  | none => .ok (warnStep m1 line)

/-- Lines 204-228 for one line.  When job_received_pattern matches and
json.loads fails on the cleaned group, the continue on line 208 skips
the rest of the loop body for this line.  json.loads is an external
library, so whether a given payload decodes enters as the badJson
argument. -/
def processLine (badJson : List Char → Bool) (m : LogMetrics) (line : List Char) :
    Except ParseError LogMetrics :=
  match jobReceivedGroup1 line with
  | some g => if badJson (pyReplaceQuotes g) then .ok m else processLineCore m line
  | none => processLineCore m line

/-- The for loop at line 186 over the lines after the marker. -/
def aggregate (badJson : List Char → Bool) :
    LogMetrics → List (List Char) → Except ParseError LogMetrics
  | m, [] => .ok m
  | m, l :: ls =>
    match processLine badJson m l with
    | .ok m' => aggregate badJson m' ls
    | .error e => .error e

/-- Line 184: next(i for i in reversed(range(len(log_lines))) if
RUN_MARKER in log_lines[i]) walks the indices from the end and stops at
the first line containing the marker, i.e. it yields the greatest index
whose line contains RUN_MARKER; none models the StopIteration raised
when there is no such line. -/
def lastMarkerIdx : List (List Char) → Option ℕ
  | [] => none
  | l :: ls =>
    match lastMarkerIdx ls with
    | some j => some (j + 1)
    | none => if occursIn RUN_MARKER l then some 0 else none

/-- The dictionary returned at lines 241-248.  gpu_usage comes from the
nvml hardware telemetry, not from the log, and passes through as an
argument. -/
structure MiningData where
  gpu_usage : List ℕ
  num_jobs : ℤ
  success_jobs : ℤ
  failed_jobs : ℤ
  latency : ℚ
  jobs_being_processed : ℤ
  deriving DecidableEq

/-- Lines 239-248: the average latency is the sum over the length when
the sample list is non-empty and the literal 0 otherwise (the
conditional guards the division). -/
def assemble (gpu_usage : List ℕ) (m : LogMetrics) : MiningData :=
  { gpu_usage := gpu_usage
    num_jobs := m.num_jobs
    success_jobs := m.success_jobs
    failed_jobs := m.failed_jobs
    latency := if m.latency.isEmpty then 0 else m.latency.sum / (m.latency.length : ℚ)
    jobs_being_processed := m.jobs_being_processed }

/-- parse_log_file on the list of log lines (file I/O is outside the
model): locate the last run marker, fold the metric updates over the
lines strictly after it, and assemble the returned record. -/
def parse_log_file (badJson : List Char → Bool) (gpu_usage : List ℕ)
    (log_lines : List (List Char)) : Except ParseError MiningData :=
  match lastMarkerIdx log_lines with
  | none => .error .noMarker
  | some i => (aggregate badJson metricsInit (log_lines.drop (i + 1))).map (assemble gpu_usage)

/-! ## Supervisor entry point (sd-miner-v1.3.1.py lines 357-411) -/

/-- Outcome of the supervisor main block: either sys.exit with a code
after having spawned the given number of worker processes, or the spawn
loop runs and the supervisor joins its children. -/
inductive SupervisorOutcome where
  | exited (code : ℕ) (workers_spawned : ℕ)
  | joined (workers_spawned : ℕ)
  deriving DecidableEq

/-- Lines 372-401: the device-count guard at line 372 runs before any
worker process is created; when it trips, the message is printed and
sys.exit(1) is reached with no child spawned.  Otherwise the loop at
line 398 spawns one process per configured device and joins them. -/
def supervisor_entry (num_cuda_devices detected_devices : ℕ) : SupervisorOutcome :=
  if num_cuda_devices > detected_devices then .exited 1 0
  else .joined num_cuda_devices

/-! ## Helper lemmas about the log aggregation -/

theorem lastMarkerIdx_eq_none (ls : List (List Char))
    (h : ∀ l ∈ ls, occursIn RUN_MARKER l = false) : lastMarkerIdx ls = none := by
  induction ls with
  | nil => rfl
  | cons l ls ih =>
    have hl : occursIn RUN_MARKER l = false := h l (by simp)
    have ht : lastMarkerIdx ls = none := ih (fun x hx => h x (by simp [hx]))
    simp [lastMarkerIdx, ht, hl]

theorem lastMarkerIdx_append (pre rest : List (List Char)) (j : ℕ)
    (h : lastMarkerIdx rest = some j) :
    lastMarkerIdx (pre ++ rest) = some (pre.length + j) := by
  induction pre with
  | nil => simpa using h
  | cons c pre ih =>
    rw [List.cons_append]
    unfold lastMarkerIdx
    rw [ih]
    show some (pre.length + j + 1) = some ((c :: pre).length + j)
    simp only [List.length_cons, Option.some.injEq]
    omega

theorem drop_after_marker (pre post : List (List Char)) (mline : List Char) :
    (pre ++ mline :: post).drop (pre.length + 1) = post := by
  have h : pre ++ mline :: post = (pre ++ [mline]) ++ post := by simp
  have hlen : (pre ++ [mline]).length = pre.length + 1 := by simp
  rw [h, ← hlen, List.drop_left]

/-- The slice taken by parse_log_file: when mline carries the run marker
and nothing in post does, the fold runs over exactly post. -/
theorem parse_after_last_marker (badJson : List Char → Bool) (g : List ℕ)
    (pre : List (List Char)) (mline : List Char) (post : List (List Char))
    (h1 : occursIn RUN_MARKER mline = true)
    (h2 : ∀ l ∈ post, occursIn RUN_MARKER l = false) :
    parse_log_file badJson g (pre ++ mline :: post) =
      (aggregate badJson metricsInit post).map (assemble g) := by
  have hpost : lastMarkerIdx post = none := lastMarkerIdx_eq_none post h2
  have hm : lastMarkerIdx (mline :: post) = some 0 := by
    simp [lastMarkerIdx, hpost, h1]
  have hidx : lastMarkerIdx (pre ++ mline :: post) = some pre.length := by
    simpa using lastMarkerIdx_append pre (mline :: post) 0 hm
  simp only [parse_log_file, hidx, drop_after_marker]

theorem processLineCore_counters (m m' : LogMetrics) (line : List Char)
    (h : processLineCore m line = .ok m')
    (inv : m.jobs_being_processed = m.num_jobs - m.success_jobs) :
    m'.jobs_being_processed = m'.num_jobs - m'.success_jobs := by
  simp only [processLineCore, warnStep] at h
  split at h
  · split at h
    · cases h
      by_cases hw : occursIn warning_lit line = true <;>
        by_cases hp : occursIn processing_lit line = true <;>
          simp [hw, hp] <;> omega
    · cases h
  · cases h
    by_cases hw : occursIn warning_lit line = true <;>
      by_cases hp : occursIn processing_lit line = true <;>
        simp [hw, hp] <;> omega

theorem processLine_counters (badJson : List Char → Bool) (m m' : LogMetrics)
    (line : List Char) (h : processLine badJson m line = .ok m')
    (inv : m.jobs_being_processed = m.num_jobs - m.success_jobs) :
    m'.jobs_being_processed = m'.num_jobs - m'.success_jobs := by
  simp only [processLine] at h
  split at h
  · split at h
    · cases h; exact inv
    · exact processLineCore_counters m m' line h inv
  · exact processLineCore_counters m m' line h inv

theorem aggregate_counters (badJson : List Char → Bool) (ls : List (List Char)) :
    ∀ m m', aggregate badJson m ls = .ok m' →
      m.jobs_being_processed = m.num_jobs - m.success_jobs →
      m'.jobs_being_processed = m'.num_jobs - m'.success_jobs := by
  induction ls with
  | nil =>
    intro m m' h inv
    cases h
    exact inv
  | cons l ls ih =>
    intro m m' h inv
    simp only [aggregate] at h
    split at h
    · rename_i m1 heq
      exact ih m1 m' h (processLine_counters badJson m m1 l heq inv)
    · cases h

theorem processLineCore_latency (m : LogMetrics) (line : List Char)
    (hc : completedGroup2 line = none) :
    ∃ m', processLineCore m line = .ok m' ∧ m'.latency = m.latency := by
  simp only [processLineCore, hc, warnStep]
  refine ⟨_, rfl, ?_⟩
  split_ifs <;> simp

theorem processLine_latency (badJson : List Char → Bool) (m : LogMetrics)
    (line : List Char) (hc : completedGroup2 line = none) :
    ∃ m', processLine badJson m line = .ok m' ∧ m'.latency = m.latency := by
  simp only [processLine]
  rcases hjr : jobReceivedGroup1 line with _ | g
  · exact processLineCore_latency m line hc
  · by_cases hb : badJson (pyReplaceQuotes g) = true
    · exact ⟨m, by simp [hb], rfl⟩
    · simpa [hb] using processLineCore_latency m line hc

theorem aggregate_latency (badJson : List Char → Bool) (ls : List (List Char)) :
    ∀ m, (∀ l ∈ ls, completedGroup2 l = none) →
      ∃ m', aggregate badJson m ls = .ok m' ∧ m'.latency = m.latency := by
  induction ls with
  | nil => exact fun m _ => ⟨m, rfl, rfl⟩
  | cons l ls ih =>
    intro m h
    rcases processLine_latency badJson m l (h l (by simp)) with ⟨m1, hs, hlat⟩
    rcases ih m1 (fun x hx => h x (by simp [hx])) with ⟨m', ha, hl2⟩
    exact ⟨m', by simp only [aggregate, hs]; exact ha, by rw [hl2, hlat]⟩

/-! ## Claims about the reload timer (C1) -/

/-- C1, counterexample to the claim as stated: with a 600 second reload
interval, last_signal_time 0 and current time 600, the interval has
elapsed and the signal call fails (no 200 response), yet
check_and_reload_model does not return the input last_signal_time 0
unchanged - line 161 hands back current_time. -/
theorem claim_C1_counterexample :
    check_and_reload_model ⟨false, none, [], [], []⟩ 600 0 600 ≠ 0 := by
  norm_num [check_and_reload_model, signalApplies]

/-- C1, amended: whenever the reload interval has elapsed at entry,
check_and_reload_model returns current_time - regardless of whether the
signal call succeeded or a new assignment was applied - and it returns
the input last_signal_time unchanged exactly when the interval has not
elapsed.  (The success-only assignment on line 156 is made moot by the
final expression on line 161.) -/
theorem claim_C1 (env : SignalEnv) (reload_interval last_signal_time current_time : ℚ) :
    check_and_reload_model env reload_interval last_signal_time current_time =
      if current_time - last_signal_time ≥ reload_interval then current_time
      else last_signal_time := by
  simp only [check_and_reload_model]
  split_ifs <;> first | rfl | linarith

/-! ## Claims about the heartbeat (C2, C8) -/

/-- C2, counterexample to the claim as stated: at time 100 with
last_heartbeat 0 the 60 second interval has elapsed; the transmission
fails (post_request yields no response), yet the stored last_heartbeat
does not stay 0. -/
theorem claim_C2_counterexample :
    (send_miner_request (α := Unit) 100 0 none (fun _ => none)).last_heartbeat ≠ 0 := by
  norm_num [send_miner_request]

/-- C2, amended: when the heartbeat interval has elapsed,
send_miner_request stores the current time as last_heartbeat at
decision time, before and independently of the transmission - the
response (including a failed one, modelled by none) cannot influence
the stored timestamp. -/
theorem claim_C2 {α : Type} (now last_heartbeat : ℚ) (response : Option HttpResponse)
    (log_response : Option HttpResponse → Option α)
    (h : now - last_heartbeat ≥ 60) :
    (send_miner_request now last_heartbeat response log_response).last_heartbeat = now := by
  simp [send_miner_request, h]

theorem claim_C2_witness :
    (100 : ℚ) - 0 ≥ 60 ∧
      (send_miner_request (α := Unit) 100 0 none (fun _ => none)).last_heartbeat = 100 :=
  ⟨by norm_num, claim_C2 100 0 none (fun _ => none) (by norm_num)⟩

/-- C8: the hardware metadata is attached exactly when
now - last_heartbeat is at least 60 seconds, and after one
attach-and-update cycle a repeated call within the same 60 second
window attaches nothing. -/
theorem claim_C8 {α : Type} (now last_heartbeat : ℚ) (response : Option HttpResponse)
    (log_response : Option HttpResponse → Option α) :
    ((send_miner_request now last_heartbeat response log_response).attached_hardware = true ↔
        now - last_heartbeat ≥ 60) ∧
    (∀ (now2 : ℚ) (response2 : Option HttpResponse)
        (log_response2 : Option HttpResponse → Option α),
      now - last_heartbeat ≥ 60 → now2 - now < 60 →
      (send_miner_request now2
          (send_miner_request now last_heartbeat response log_response).last_heartbeat
          response2 log_response2).attached_hardware = false) := by
  constructor
  · simp [send_miner_request]
  · intro now2 response2 log_response2 h1 h2
    simp [send_miner_request, h1, not_le.mpr h2]

theorem claim_C8_witness :
    (((send_miner_request (α := Unit) 100 0 none (fun _ => none)).attached_hardware = true ↔
        (100 : ℚ) - 0 ≥ 60) ∧
      (100 : ℚ) - 0 ≥ 60 ∧ (130 : ℚ) - 100 < 60 ∧
      (send_miner_request (α := Unit) 130
          (send_miner_request (α := Unit) 100 0 none (fun _ => none)).last_heartbeat
          none (fun _ => none)).attached_hardware = false) :=
  ⟨(claim_C8 100 0 none (fun _ => none)).1, by norm_num, by norm_num,
    (claim_C8 (α := Unit) 100 0 none (fun _ => none)).2 130 none (fun _ => none)
      (by norm_num) (by norm_num)⟩

/-! ## Claims about the worker iteration (C3) -/

/-- C3, counterexample to the claim as stated: with no loaded model, no
loaded lora, but one model id available locally, process_jobs does not
terminate the process - it proceeds to send_miner_request with model id
None. -/
theorem claim_C3_counterexample :
    process_jobs [] [] ["model-a"] = ProcessJobsStep.requested none := by
  decide

/-- C3, amended: process_jobs terminates the process (sys.exit(0))
exactly when get_local_model_ids returns an empty list; whenever local
model ids exist it sends the poll request, carrying the first loaded
lora key if any, else the first loaded model key - which is None when
neither is loaded. -/
theorem claim_C3 (loaded_models loaded_loras local_model_ids : List String) :
    (process_jobs loaded_models loaded_loras local_model_ids = .exited 0 ↔
        local_model_ids = []) ∧
    (local_model_ids ≠ [] →
      process_jobs loaded_models loaded_loras local_model_ids =
        .requested (if loaded_loras.head?.isSome then loaded_loras.head?
                    else loaded_models.head?)) := by
  constructor
  · cases local_model_ids <;> simp [process_jobs]
  · intro h
    cases local_model_ids with
    | nil => exact absurd rfl h
    | cons a as => simp [process_jobs]

theorem claim_C3_witness :
    (["model-a"] : List String) ≠ [] ∧
      process_jobs [] [] ["model-a"] = ProcessJobsStep.requested none :=
  ⟨by decide,
    show process_jobs [] [] ["model-a"] = ProcessJobsStep.requested none from
      (claim_C3 [] [] ["model-a"]).2 (by decide)⟩

/-! ## Claims about the supervisor (C7) -/

/-- C7: when the configured CUDA device count exceeds the detected
count, the supervisor entry point exits with status 1 having spawned
zero worker processes. -/
theorem claim_C7 (num_cuda_devices detected_devices : ℕ)
    (h : num_cuda_devices > detected_devices) :
    supervisor_entry num_cuda_devices detected_devices = .exited 1 0 := by
  simp [supervisor_entry, h]

theorem claim_C7_witness :
    4 > 2 ∧ supervisor_entry 4 2 = SupervisorOutcome.exited 1 0 :=
  ⟨by decide, claim_C7 4 2 (by decide)⟩

/-! ## Helper lemmas about the warning extraction (for C4) -/

theorem startsWith_append_self : ∀ (sep r : List Char), startsWith sep (sep ++ r) = true
  | [], _ => rfl
  | a :: sep, r => by
    simp only [List.cons_append, startsWith, beq_self_eq_true, Bool.true_and]
    exact startsWith_append_self sep r

theorem eq_append_of_startsWith :
    ∀ (sep s : List Char), startsWith sep s = true → ∃ r, s = sep ++ r
  | [], s, _ => ⟨s, rfl⟩
  | _ :: _, [], h => by simp [startsWith] at h
  | a :: sep, b :: s, h => by
    simp only [startsWith, Bool.and_eq_true, beq_iff_eq] at h
    obtain ⟨rfl, h2⟩ := h
    obtain ⟨r, hr⟩ := eq_append_of_startsWith sep s h2
    exact ⟨r, by rw [hr, List.cons_append]⟩

theorem findSplit_at_head (sep r : List Char) (hsep : sep ≠ []) :
    findSplit sep (sep ++ r) = some ([], r) := by
  cases sep with
  | nil => exact absurd rfl hsep
  | cons a sep' =>
    show findSplit (a :: sep') (a :: (sep' ++ r)) = some ([], r)
    unfold findSplit
    rw [if_pos (by simpa using startsWith_append_self (a :: sep') r)]
    show some ([], ((a :: sep') ++ r).drop (a :: sep').length) = some ([], r)
    rw [List.drop_left]

theorem findSplit_of_not_occurs (sep s : List Char) (h : occursIn sep s = false) :
    findSplit sep s = none := by
  unfold occursIn at h
  cases hf : findSplit sep s with
  | none => rfl
  | some p => rw [hf] at h; simp at h

theorem occursIn_cons_false (sep : List Char) (c : Char) (s : List Char)
    (h : occursIn sep (c :: s) = false) :
    startsWith sep (c :: s) = false ∧ occursIn sep s = false := by
  unfold occursIn findSplit at h
  by_cases hs : startsWith sep (c :: s) = true
  · rw [if_pos hs] at h
    simp at h
  · refine ⟨by simpa using hs, ?_⟩
    rw [if_neg hs] at h
    unfold occursIn
    cases hf : findSplit sep s with
    | none => rfl
    | some p =>
      rcases p with ⟨pre, post⟩
      rw [hf] at h
      simp at h

theorem occursIn_of_startsWith (sep s : List Char) (h : startsWith sep s = true)
    (hs : s ≠ []) : occursIn sep s = true := by
  cases s with
  | nil => exact absurd rfl hs
  | cons c s' =>
    unfold occursIn findSplit
    rw [if_pos h]
    rfl

/-- The sentinel overlap argument: if the body x ++ sep ++ r also begins
with sep while x is non-empty, then sep already occurs inside
x ++ sep.dropLast, i.e. strictly before the displayed occurrence. -/
theorem startsWith_overlap (sep x z' r : List Char) (hsep : sep ≠ []) (hx : x ≠ [])
    (heq : x ++ sep ++ r = sep ++ z') :
    startsWith sep (x ++ sep.dropLast) = true := by
  have hsl : 1 ≤ sep.length := List.length_pos.mpr hsep
  have hxl : 1 ≤ x.length := List.length_pos.mpr hx
  have htake := congrArg (List.take (x.length + sep.length - 1)) heq
  have hL : (x ++ sep ++ r).take (x.length + sep.length - 1) = x ++ sep.dropLast := by
    rw [List.append_assoc, List.take_append_eq_append_take,
      List.take_of_length_le (by omega)]
    congr 1
    rw [List.take_append_eq_append_take]
    have h1 : x.length + sep.length - 1 - x.length = sep.length - 1 := by omega
    have h2 : sep.length - 1 - sep.length = 0 := by omega
    rw [h1, h2, List.take_zero, List.append_nil]
    exact (List.dropLast_eq_take sep).symm
  have hR : (sep ++ z').take (x.length + sep.length - 1) =
      sep ++ z'.take (x.length - 1) := by
    rw [List.take_append_eq_append_take, List.take_of_length_le (by omega)]
    congr 2
    omega
  rw [hL, hR] at htake
  rw [htake]
  exact startsWith_append_self sep _

/-- When sep does not occur anywhere in p ++ sep.dropLast (no earlier or
overlapping occurrence), the first occurrence of sep in p ++ sep ++ r is
the displayed one, so the scan splits exactly there. -/
theorem findSplit_append (sep : List Char) :
    ∀ (p r : List Char), sep ≠ [] →
      occursIn sep (p ++ sep.dropLast) = false →
      findSplit sep (p ++ sep ++ r) = some (p, r)
  | [], r, hsep, _ => by simpa using findSplit_at_head sep r hsep
  | c :: p', r, hsep, hocc => by
    have hnsw : ¬startsWith sep ((c :: p') ++ sep ++ r) = true := by
      intro hsw
      obtain ⟨z', hz⟩ := eq_append_of_startsWith sep _ hsw
      have hin := occursIn_of_startsWith sep ((c :: p') ++ sep.dropLast)
        (startsWith_overlap sep (c :: p') z' r hsep (by simp) hz) (by simp)
      rw [hin] at hocc
      cases hocc
    have hocc' : occursIn sep (p' ++ sep.dropLast) = false :=
      (occursIn_cons_false sep c (p' ++ sep.dropLast) (by simpa using hocc)).2
    have ih := findSplit_append sep p' r hsep hocc'
    show findSplit sep (c :: (p' ++ sep ++ r)) = some (c :: p', r)
    unfold findSplit
    rw [if_neg (by simpa using hnsw)]
    rw [ih]

/-- Python split(sep)[1] on a body of the form p ++ sep ++ qt when sep
occurs exactly once: the whole remainder qt. -/
theorem part1_append (sep p qt : List Char) (hsep : sep ≠ [])
    (h1 : occursIn sep (p ++ sep.dropLast) = false)
    (h2 : occursIn sep qt = false) :
    part1 sep (p ++ sep ++ qt) = some qt := by
  simp only [part1, findSplit_append sep p qt hsep h1,
    findSplit_of_not_occurs sep qt h2]

theorem dropWhile_quote_all_false :
    ∀ (l : List Char), (∀ c ∈ l, (c == '"') = false) →
      l.dropWhile (fun c => c == '"') = l
  | [], _ => rfl
  | b :: l', h => by
    rw [List.dropWhile_cons, if_neg (by simp [h b (by simp)])]

/-- Python strip of quotes on a body of the form quote ++ t ++ quote
with no quote inside t: exactly t. -/
theorem stripQuotes_wrap (t : List Char) (h : '"' ∉ t) :
    stripQuotes ('"' :: (t ++ ['"'])) = t := by
  have hall : ∀ c ∈ t, (c == '"') = false := by
    intro c hc
    simp only [beq_eq_false_iff_ne, ne_eq]
    exact fun he => h (he ▸ hc)
  unfold stripQuotes
  rw [List.dropWhile_cons, if_pos (by simp)]
  cases t with
  | nil => rfl
  | cons a t' =>
    have ha : (a == '"') = false := hall a (by simp)
    rw [List.cons_append, List.dropWhile_cons, if_neg (by simp [ha]),
      ← List.cons_append, List.reverse_append, List.reverse_singleton,
      List.singleton_append, List.dropWhile_cons, if_pos (by simp)]
    rw [dropWhile_quote_all_false (a :: t').reverse
      (fun c hc => hall c (List.mem_reverse.mp hc))]
    exact List.reverse_reverse _

/-! ## Claims about the warning extraction (C4) -/

/-- C4: for a response whose body is anything followed by the sentinel
followed by quoted text reaching the end of the body (the sentinel
occurring nowhere else, the quoted text containing no quote character),
send_miner_request surfaces exactly the text without the wrapping
quotes, and the returned response data is whatever log_response yields
for the same response - the warning neither fails the call nor changes
the returned job. -/
theorem claim_C4 {α : Type} (p t : List Char) (now last_heartbeat : ℚ)
    (resp : HttpResponse) (log_response : Option HttpResponse → Option α)
    (hresp : resp.text = p ++ warning_indicator ++ ('"' :: (t ++ ['"'])))
    (h1 : occursIn warning_indicator (p ++ warning_indicator.dropLast) = false)
    (h2 : occursIn warning_indicator ('"' :: (t ++ ['"'])) = false)
    (h3 : '"' ∉ t) :
    (send_miner_request now last_heartbeat (some resp) log_response).warning = some t ∧
      (send_miner_request now last_heartbeat (some resp) log_response).response_data =
        log_response (some resp) := by
  have hsep : warning_indicator ≠ [] := by decide
  have hw : warningOf resp.text = some t := by
    unfold warningOf
    rw [hresp]
    have hocc :
        occursIn warning_indicator (p ++ warning_indicator ++ ('"' :: (t ++ ['"']))) =
          true := by
      unfold occursIn
      rw [findSplit_append warning_indicator p _ hsep h1]
      rfl
    rw [if_pos hocc, part1_append warning_indicator p _ hsep h1 h2]
    simp [stripQuotes_wrap t h3]
  exact ⟨by simpa [send_miner_request] using hw, by simp [send_miner_request]⟩

theorem claim_C4_witness :
    (send_miner_request (α := ℕ) 0 0
        (some ⟨200, "Warning:\"disk almost full\"".toList⟩)
        (fun _ => some 42)).warning = some ("disk almost full".toList) ∧
      (send_miner_request (α := ℕ) 0 0
        (some ⟨200, "Warning:\"disk almost full\"".toList⟩)
        (fun _ => some 42)).response_data = some 42 :=
  claim_C4 [] ("disk almost full".toList) 0 0
    ⟨200, "Warning:\"disk almost full\"".toList⟩ (fun _ => some 42)
    (by decide) (by decide) (by decide) (by decide)

/-! ## Claims about the log metrics aggregator (C5, C6, C9, C10) -/

/-- C5: when mline is the last line carrying the run marker (no line of
post carries it, pre is arbitrary and may contain earlier markers), the
metrics parse_log_file returns are computed from the fold over post
alone - every line at or before the last marker contributes nothing. -/
theorem claim_C5 (badJson : List Char → Bool) (g : List ℕ)
    (pre : List (List Char)) (mline : List Char) (post : List (List Char))
    (h1 : occursIn RUN_MARKER mline = true)
    (h2 : ∀ l ∈ post, occursIn RUN_MARKER l = false) :
    parse_log_file badJson g (pre ++ mline :: post) =
      (aggregate badJson metricsInit post).map (assemble g) :=
  parse_after_last_marker badJson g pre mline post h1 h2

theorem claim_C5_witness :
    parse_log_file (fun _ => false) []
        (["previous run WARNING".toList, RUN_MARKER] ++ RUN_MARKER :: ["tail line".toList]) =
      (aggregate (fun _ => false) metricsInit ["tail line".toList]).map (assemble []) :=
  claim_C5 (fun _ => false) [] ["previous run WARNING".toList, RUN_MARKER] RUN_MARKER
    ["tail line".toList] (by decide) (by decide)

/-- C6: when no line contains the run marker, parse_log_file fails with
the distinct missing-marker error (the StopIteration of line 184)
rather than returning a metrics record; a log consisting of just a
marker line instead succeeds with all-zero counters, so the two cases
are distinguishable. -/
theorem claim_C6 (badJson : List Char → Bool) (g : List ℕ) (lines : List (List Char))
    (h : ∀ l ∈ lines, occursIn RUN_MARKER l = false) :
    parse_log_file badJson g lines = .error .noMarker ∧
      parse_log_file badJson g [RUN_MARKER] = .ok (assemble g metricsInit) := by
  constructor
  · simp [parse_log_file, lastMarkerIdx_eq_none lines h]
  · rfl

theorem claim_C6_witness :
    parse_log_file (fun _ => false) [] ["no marker here".toList] = .error .noMarker ∧
      parse_log_file (fun _ => false) [] [RUN_MARKER] = .ok (assemble [] metricsInit) :=
  claim_C6 (fun _ => false) [] ["no marker here".toList] (by decide)

/-- C9: on a log whose last run marker is followed by no line matching
the job-completed pattern, parse_log_file succeeds and returns average
latency exactly 0: the guard on line 239 selects the literal 0 instead
of dividing by the empty sample count. -/
theorem claim_C9 (badJson : List Char → Bool) (g : List ℕ)
    (pre : List (List Char)) (mline : List Char) (post : List (List Char))
    (h1 : occursIn RUN_MARKER mline = true)
    (h2 : ∀ l ∈ post, occursIn RUN_MARKER l = false)
    (h3 : ∀ l ∈ post, completedGroup2 l = none) :
    Except.map MiningData.latency (parse_log_file badJson g (pre ++ mline :: post)) =
      .ok 0 := by
  rw [parse_after_last_marker badJson g pre mline post h1 h2]
  rcases aggregate_latency badJson post metricsInit h3 with ⟨m', ha, hl⟩
  have hl0 : m'.latency = [] := hl
  simp [ha, Except.map, assemble, hl0]

theorem claim_C9_witness :
    Except.map MiningData.latency
        (parse_log_file (fun _ => false) []
          (["old stuff".toList] ++ RUN_MARKER :: ["still running WARNING".toList])) =
      .ok 0 :=
  claim_C9 (fun _ => false) [] ["old stuff".toList] RUN_MARKER
    ["still running WARNING".toList] (by decide) (by decide) (by decide)

/-- C10: whenever parse_log_file succeeds, the returned counters
satisfy jobs_being_processed = num_jobs - success_jobs: each
Processing Request ID line adds one to both num_jobs and
jobs_being_processed, each job-completed line adds one to success_jobs
and subtracts one from jobs_being_processed, and no other line touches
these three counters - so the difference is an invariant of the fold
(and jobs_being_processed goes negative when completions outnumber
acceptances). -/
theorem claim_C10 (badJson : List Char → Bool) (g : List ℕ)
    (lines : List (List Char)) (M : MiningData)
    (h : parse_log_file badJson g lines = .ok M) :
    M.jobs_being_processed = M.num_jobs - M.success_jobs := by
  simp only [parse_log_file] at h
  split at h
  · cases h
  · rcases hag : aggregate badJson metricsInit (lines.drop _) with e | m <;>
      rw [hag] at h <;> simp [Except.map] at h
    have hinv := aggregate_counters badJson _ metricsInit m hag (by simp [metricsInit])
    rw [← h]
    simpa [assemble] using hinv

theorem claim_C10_witness :
    (⟨[], 1, 0, 0, 0, 1⟩ : MiningData).jobs_being_processed =
      (⟨[], 1, 0, 0, 0, 1⟩ : MiningData).num_jobs -
        (⟨[], 1, 0, 0, 0, 1⟩ : MiningData).success_jobs :=
  claim_C10 (fun _ => false) []
    [RUN_MARKER, "INFO - Processing Request ID: 7. Model ID: m.".toList]
    ⟨[], 1, 0, 0, 0, 1⟩ (by rfl)

end SdMiner
